import Mathlib

/-!
Verification of the `countrs` counter library.

Shallow embedding of `src/lib.rs`: the `Direction` and `Counter` types,
the `counter()` elapsed/remaining computation, the `flip`, `try_move_start`,
`try_move_end` mutators, the `Display` rendering, and the three-line text
serialization used by `to_file`/`from_file`.

Instants (`chrono::DateTime<Utc>`) are modelled as a signed count of
nanoseconds since the Unix epoch; `chrono::Duration` values are modelled as
signed nanosecond counts.  The external chrono crate's RFC 3339
rendering/parsing is modelled by its documented contract (an injective
rendering whose output never contains a newline and which parses back
exactly); serialization theorems take that contract as explicit
render/parse function arguments.
-/

namespace Countrs

/-- The `Direction` type from `lib.rs`: counting `Up` (elapsed since start) or
`Down` (remaining until end). -/
inductive Direction : Type where
  | Up : Direction
  | Down : Direction
deriving DecidableEq, Repr

/-- The `ConversionError` unit error type returned by `Direction`'s
`FromStr` implementation. -/
inductive ConversionError : Type where
  | mk : ConversionError
deriving DecidableEq, Repr

/-- The `FromStr` implementation for `Direction`: accepts exactly the literal strings
`"Up"` and `"Down"`. -/
def Direction.fromStr (string : String) : Except ConversionError Direction :=
  if string = "Up" then .ok Direction.Up
  else if string = "Down" then .ok Direction.Down
  else .error ConversionError.mk

/-- The `Display` implementation for `Direction`: renders the literal token `Up` / `Down`. -/
def Direction.render : Direction → String
  | Direction.Up => "Up"
  | Direction.Down => "Down"

/-- Nanoseconds per second. -/
def nsPerSec : Int := 1000000000

/-- Day number of a proleptic-Gregorian civil date (days since the Unix
epoch), chrono's internal calendar arithmetic. -/
def daysFromCivil (y m d : Int) : Int :=
  let y' : Int := if m ≤ 2 then y - 1 else y
  let era : Int := Int.fdiv y' 400
  let yoe : Int := y' - era * 400
  let mp : Int := Int.fdiv (m + 9) 12 * (-12) + (m + 9)
  let doy : Int := Int.fdiv (153 * mp + 2) 5 + d - 1
  let doe : Int := yoe * 365 + Int.fdiv yoe 4 - Int.fdiv yoe 100 + doy
  era * 146097 + doe - 719468

/-- Model of `chrono::DateTime<Utc>`: nanoseconds since the Unix epoch. -/
abbrev DateTimeUtc := Int

/-- Smallest representable chrono instant (year −262144, Jan 1), in ns. -/
def minDateTimeNs : Int := daysFromCivil (-262144) 1 1 * 86400 * nsPerSec

/-- Largest representable chrono instant (year 262143, Dec 31,
23:59:59.999999999), in ns. -/
def maxDateTimeNs : Int := (daysFromCivil 262143 12 31 + 1) * 86400 * nsPerSec - 1

/-- Model of `DateTime::checked_add_signed`: displaces an instant by a signed
duration, returning `none` when the result leaves chrono's representable
range. -/
def checkedAddSigned (t : DateTimeUtc) (offset : Int) : Option DateTimeUtc :=
  if minDateTimeNs ≤ t + offset ∧ t + offset ≤ maxDateTimeNs then some (t + offset)
  else none

/-- Model of `chrono::Duration::num_seconds` on a nanosecond count: the total number
of whole seconds, truncated toward zero. -/
def numSeconds (durationNs : Int) : Int :=
  Int.tdiv durationNs nsPerSec

/-- The `Counter` type from `lib.rs`: a start instant, an end instant and a
direction.  Generic in the instant type so that serialization facts can be
stated for any instant codec; the chrono-backed instantiation is
`Counter DateTimeUtc`. -/
structure Counter (Ts : Type) : Type where
  start : Ts
  «end» : Ts
  direction : Direction
deriving DecidableEq, Repr

/-- The constructor `Counter::down`: both optional instants default to the epoch
(`DateTime::<Utc>::default()`), direction is `Down`. -/
def Counter.down (start «end» : Option DateTimeUtc) : Counter DateTimeUtc :=
  { start := start.getD 0
    «end» := «end».getD 0
    direction := Direction.Down }

/-- The constructor `Counter::up`: both optional instants default to the epoch, direction
is `Up`. -/
def Counter.up (start «end» : Option DateTimeUtc) : Counter DateTimeUtc :=
  { start := start.getD 0
    «end» := «end».getD 0
    direction := Direction.Up }

/-- The mutator `Counter::flip`: toggles the direction in place. -/
def Counter.flip {Ts : Type} (c : Counter Ts) : Counter Ts :=
  { c with direction :=
      match c.direction with
      | Direction.Up => Direction.Down
      | Direction.Down => Direction.Up }

/-- The query `Counter::counter` with the ambient `Utc::now()` made an explicit
argument: the signed duration is `end - now` for `Down` and `now - start`
for `Up`; its whole-second count is split into `(hours, minutes, seconds)`
with Rust's truncating `/` and `%`, clamped to `(0, 0, 0)` when negative. -/
def Counter.counter (c : Counter DateTimeUtc) (now : DateTimeUtc) : Int × Int × Int :=
  let duration : Int :=
    match c.direction with
    | Direction.Down => c.«end» - now
    | Direction.Up => now - c.start
  match numSeconds duration with
  | num =>
    if num ≥ 0 then (Int.tdiv num 3600, Int.tmod (Int.tdiv num 60) 60, Int.tmod num 60)
    else (0, 0, 0)

/-- The `TimeOverflow` unit error type from `lib.rs`. -/
inductive TimeOverflow : Type where
  | mk : TimeOverflow
deriving DecidableEq, Repr

/-- The mutator `Counter::try_move_start`: the mutation of `self` is modelled by
returning the `Result` together with the post-call counter. -/
def Counter.tryMoveStart (c : Counter DateTimeUtc) (offset : Int) :
    Except TimeOverflow Unit × Counter DateTimeUtc :=
  match checkedAddSigned c.start offset with
  | some newStart => (.ok (), { c with start := newStart })
  | none => (.error TimeOverflow.mk, c)

/-- The mutator `Counter::try_move_end`: symmetric to `try_move_start`, for `end`. -/
def Counter.tryMoveEnd (c : Counter DateTimeUtc) (offset : Int) :
    Except TimeOverflow Unit × Counter DateTimeUtc :=
  match checkedAddSigned c.«end» offset with
  | some newEnd => (.ok (), { c with «end» := newEnd })
  | none => (.error TimeOverflow.mk, c)

/-- Rust's `str::split("\n")` on the character list of a string: splits at
every newline, keeping empty pieces, and always yields at least one piece. -/
def splitNl : List Char → List (List Char)
  | [] => [[]]
  | c :: cs =>
    if c = '\n' then [] :: splitNl cs
    else
      match splitNl cs with
      | [] => [[c]]
      | h :: t => (c :: h) :: t

/-- The text written by `Counter::to_file`: the rendered start, the
rendered end and the rendered direction, joined by single newlines, with
the external chrono rendering supplied as `rTs`. -/
def Counter.toFileText {Ts : Type} (rTs : Ts → String) (c : Counter Ts) : String :=
  rTs c.start ++ "\n" ++ rTs c.«end» ++ "\n" ++ c.direction.render

/-- The four `InvalidData` error cases `Counter::from_file` can raise, one
per error message in `lib.rs`. -/
inductive FromFileErr : Type where
  | invalidStart : FromFileErr
  | invalidEnd : FromFileErr
  | invalidDirection : FromFileErr
  | malformed : FromFileErr
deriving DecidableEq, Repr

/-- The parsing part of `Counter::from_file`: split the file's text on
`"\n"`, take the first three pieces (any further pieces are ignored), parse
them as start instant, end instant and direction in that order, failing on
the first piece that does not parse, or with `malformed` when fewer than
three pieces exist.  The external chrono `parse_from_rfc3339` is supplied
as `parse`. -/
def Counter.fromFileText {Ts : Type} (parse : String → Option Ts) (text : String) :
    Except FromFileErr (Counter Ts) :=
  match splitNl text.data with
  | l1 :: l2 :: l3 :: _ =>
    match parse (String.mk l1) with
    | none => .error FromFileErr.invalidStart
    | some start =>
      match parse (String.mk l2) with
      | none => .error FromFileErr.invalidEnd
      | some «end» =>
        match Direction.fromStr (String.mk l3) with
        | .error _ => .error FromFileErr.invalidDirection
        | .ok direction => .ok { start := start, «end» := «end», direction := direction }
  | _ => .error FromFileErr.malformed

/-- Rust's zero-fill right-align width-2 format specifier applied to an
integer: the decimal rendering, left-filled with `'0'` up to width 2. -/
def pad2 (n : Int) : String :=
  let s := toString n
  if s.length < 2 then String.mk (List.replicate (2 - s.length) '0') ++ s else s

/-- The `Display` implementation for `Counter` with the injected `now`: the `counter()`
triple rendered as `HH:MM:SS`, each component through `pad2`. -/
def Counter.render (c : Counter DateTimeUtc) (now : DateTimeUtc) : String :=
  match c.counter now with
  | (hours, minutes, seconds) => pad2 hours ++ ":" ++ pad2 minutes ++ ":" ++ pad2 seconds

/-! ## Helper lemmas -/

/-- Splitting a list that begins with a newline-free block followed by a
newline peels off exactly that block. -/
theorem splitNl_append_of_not_mem (a r : List Char) (h : '\n' ∉ a) :
    splitNl (a ++ '\n' :: r) = a :: splitNl r := by
  induction a with
  | nil => simp [splitNl]
  | cons c a ih =>
    have hc : c ≠ '\n' := fun hc => h (hc ▸ List.mem_cons_self c a)
    have ha : '\n' ∉ a := fun ha => h (List.mem_cons_of_mem c ha)
    simp only [List.cons_append, splitNl, if_neg hc, List.append_eq, ih ha]

/-- Splitting a newline-free list yields that single piece. -/
theorem splitNl_of_not_mem (l : List Char) (h : '\n' ∉ l) : splitNl l = [l] := by
  induction l with
  | nil => rfl
  | cons c l ih =>
    have hc : c ≠ '\n' := fun hc => h (hc ▸ List.mem_cons_self c l)
    have hl : '\n' ∉ l := fun hl => h (List.mem_cons_of_mem c hl)
    simp only [splitNl, if_neg hc, ih hl]

/-- A direction renders to a newline-free token. -/
theorem direction_render_no_newline (d : Direction) : '\n' ∉ (d.render).data := by
  cases d <;> decide

/-- A direction's rendered token parses back to the direction. -/
theorem direction_fromStr_render (d : Direction) :
    Direction.fromStr d.render = Except.ok d := by
  cases d <;> rfl

/-- Applying `pad2` to an integer between 0 and 59 gives exactly two characters. -/
theorem pad2_length_of_lt_sixty (m : Int) (h0 : 0 ≤ m) (h60 : m < 60) :
    (pad2 m).length = 2 := by
  have hb : ∀ k : Nat, k < 60 → (pad2 (Int.ofNat k)).length = 2 := by decide
  have hm : Int.ofNat m.toNat = m := Int.toNat_of_nonneg h0
  have hk : m.toNat < 60 := by omega
  rw [← hm]
  exact hb _ hk

/-- Unfolding equation for `counter()` on an `Up` counter. -/
theorem counter_up_eq (s e now : DateTimeUtc) :
    Counter.counter ⟨s, e, Direction.Up⟩ now =
      if numSeconds (now - s) ≥ 0 then
        (Int.tdiv (numSeconds (now - s)) 3600,
          Int.tmod (Int.tdiv (numSeconds (now - s)) 60) 60,
          Int.tmod (numSeconds (now - s)) 60)
      else (0, 0, 0) := rfl

/-- Unfolding equation for `counter()` on a `Down` counter. -/
theorem counter_down_eq (s e now : DateTimeUtc) :
    Counter.counter ⟨s, e, Direction.Down⟩ now =
      if numSeconds (e - now) ≥ 0 then
        (Int.tdiv (numSeconds (e - now)) 3600,
          Int.tmod (Int.tdiv (numSeconds (e - now)) 60) 60,
          Int.tmod (numSeconds (e - now)) 60)
      else (0, 0, 0) := rfl

/-- The components of `counter()` are never negative, and the minute and
second components are below 60. -/
theorem counter_bounds (c : Counter DateTimeUtc) (now : DateTimeUtc) :
    0 ≤ (c.counter now).1 ∧
    0 ≤ (c.counter now).2.1 ∧ (c.counter now).2.1 < 60 ∧
    0 ≤ (c.counter now).2.2 ∧ (c.counter now).2.2 < 60 := by
  rcases c with ⟨s, e, d⟩
  have key : ∀ n : Int,
      0 ≤ (if n ≥ 0 then
          (Int.tdiv n 3600, Int.tmod (Int.tdiv n 60) 60, Int.tmod n 60)
        else ((0 : Int), (0 : Int), (0 : Int))).1 ∧
      0 ≤ (if n ≥ 0 then
          (Int.tdiv n 3600, Int.tmod (Int.tdiv n 60) 60, Int.tmod n 60)
        else ((0 : Int), (0 : Int), (0 : Int))).2.1 ∧
      (if n ≥ 0 then
          (Int.tdiv n 3600, Int.tmod (Int.tdiv n 60) 60, Int.tmod n 60)
        else ((0 : Int), (0 : Int), (0 : Int))).2.1 < 60 ∧
      0 ≤ (if n ≥ 0 then
          (Int.tdiv n 3600, Int.tmod (Int.tdiv n 60) 60, Int.tmod n 60)
        else ((0 : Int), (0 : Int), (0 : Int))).2.2 ∧
      (if n ≥ 0 then
          (Int.tdiv n 3600, Int.tmod (Int.tdiv n 60) 60, Int.tmod n 60)
        else ((0 : Int), (0 : Int), (0 : Int))).2.2 < 60 := by
    intro n
    by_cases hn : n ≥ 0
    · rw [if_pos hn]
      have hq : (0 : Int) ≤ Int.tdiv n 60 := by
        rw [Int.tdiv_eq_ediv hn (by norm_num)]
        exact Int.ediv_nonneg hn (by norm_num)
      refine ⟨?_, ?_, ?_, ?_, ?_⟩
      · rw [Int.tdiv_eq_ediv hn (by norm_num)]
        exact Int.ediv_nonneg hn (by norm_num)
      · rw [Int.tmod_eq_emod hq (by norm_num)]
        exact Int.emod_nonneg _ (by norm_num)
      · rw [Int.tmod_eq_emod hq (by norm_num)]
        exact Int.emod_lt_of_pos _ (by norm_num)
      · rw [Int.tmod_eq_emod hn (by norm_num)]
        exact Int.emod_nonneg _ (by norm_num)
      · rw [Int.tmod_eq_emod hn (by norm_num)]
        exact Int.emod_lt_of_pos _ (by norm_num)
    · rw [if_neg hn]
      norm_num
  cases d
  · rw [counter_up_eq]
    exact key (numSeconds (now - s))
  · rw [counter_down_eq]
    exact key (numSeconds (e - now))

/-- Unfolding equation for the `Display` rendering of a counter. -/
theorem render_eq (c : Counter DateTimeUtc) (now : DateTimeUtc) :
    c.render now =
      pad2 (c.counter now).1 ++ ":" ++ pad2 (c.counter now).2.1 ++ ":" ++
        pad2 (c.counter now).2.2 := by
  unfold Counter.render
  rcases hc : c.counter now with ⟨hh, mm, ss⟩
  rfl

/-! ## Claims -/

/-- C1: `counter()` computes the signed duration as `end - now` for `Down`
and `now - start` for `Up`; with `n` its signed total whole seconds, the
result is exactly `(0, 0, 0)` when `n < 0`, and otherwise
`(n / 3600, n / 60 % 60, n % 60)` with truncating division. -/
theorem counter_clamped_division (c : Counter DateTimeUtc) (now : DateTimeUtc) (n : Int)
    (hn : n = numSeconds (match c.direction with
      | Direction.Down => c.«end» - now
      | Direction.Up => now - c.start)) :
    (n < 0 → c.counter now = (0, 0, 0)) ∧
    (0 ≤ n → c.counter now =
      (Int.tdiv n 3600, Int.tmod (Int.tdiv n 60) 60, Int.tmod n 60)) := by
  rcases c with ⟨s, e, d⟩
  cases d <;>
    · simp only at hn
      subst hn
      unfold Counter.counter
      constructor
      · intro hneg
        simp only []
        rw [if_neg (by omega)]
      · intro hpos
        simp only []
        rw [if_pos (by omega)]

/-- Witness for C1 at concrete instants: an Up counter 7384 s after its
start shows (2, 3, 4); a Down counter one second past its end clamps. -/
theorem counter_clamped_division_witness :
    Counter.counter ⟨0, 0, Direction.Up⟩ 7384000000000 = (2, 3, 4) ∧
    Counter.counter ⟨0, 10000000000, Direction.Down⟩ 11000000000 = (0, 0, 0) := by
  constructor
  · exact ((counter_clamped_division ⟨0, 0, Direction.Up⟩ 7384000000000 7384
      (by decide)).2 (by decide)).trans (by decide)
  · exact (counter_clamped_division ⟨0, 10000000000, Direction.Down⟩ 11000000000 (-1)
      (by decide)).1 (by decide)

/-- C4: `flip` swaps the direction, leaves `start` and `end` unchanged,
and is an involution, so the displayed triple at any fixed `now` is
unchanged after two flips. -/
theorem flip_involution (c : Counter DateTimeUtc) :
    (c.direction = Direction.Up → c.flip.direction = Direction.Down) ∧
    (c.direction = Direction.Down → c.flip.direction = Direction.Up) ∧
    c.flip.start = c.start ∧ c.flip.«end» = c.«end» ∧
    c.flip.flip = c ∧
    (∀ now : DateTimeUtc, (c.flip.flip).counter now = c.counter now) := by
  rcases c with ⟨s, e, d⟩
  cases d <;> simp [Counter.flip]

/-- Witness for C4 at a concrete counter. -/
theorem flip_involution_witness :
    (Counter.flip (⟨3, 7, Direction.Up⟩ : Counter DateTimeUtc)).direction = Direction.Down ∧
    Counter.flip (Counter.flip (⟨3, 7, Direction.Up⟩ : Counter DateTimeUtc)) =
      (⟨3, 7, Direction.Up⟩ : Counter DateTimeUtc) := by
  refine ⟨(flip_involution ⟨3, 7, Direction.Up⟩).1 (by decide), ?_⟩
  exact (flip_involution ⟨3, 7, Direction.Up⟩).2.2.2.2.1

/-- C9: `down` and `up` store the supplied instants exactly (absent ones
default to the epoch), set the respective direction, and apply no
grace-second adjustment to `end`. -/
theorem constructors_store_exactly (s e : Option DateTimeUtc) :
    Counter.down s e =
      { start := s.getD 0, «end» := e.getD 0, direction := Direction.Down } ∧
    Counter.up s e =
      { start := s.getD 0, «end» := e.getD 0, direction := Direction.Up } ∧
    (∀ t : DateTimeUtc, (Counter.down s (some t)).«end» = t) ∧
    (∀ t : DateTimeUtc, (Counter.up s (some t)).«end» = t) := by
  exact ⟨rfl, rfl, fun t => rfl, fun t => rfl⟩

/-- C3: `try_move_start` either fully replaces `start` by `start + offset`
(when representable) or fails with `TimeOverflow` leaving the counter
unchanged; `try_move_end` is symmetric. -/
theorem try_move_atomic (c : Counter DateTimeUtc) (offset : Int) :
    ((∃ t, checkedAddSigned c.start offset = some t ∧ t = c.start + offset ∧
        c.tryMoveStart offset = (Except.ok (), { c with start := t })) ∨
      (checkedAddSigned c.start offset = none ∧
        c.tryMoveStart offset = (Except.error TimeOverflow.mk, c))) ∧
    ((∃ t, checkedAddSigned c.«end» offset = some t ∧ t = c.«end» + offset ∧
        c.tryMoveEnd offset = (Except.ok (), { c with «end» := t })) ∨
      (checkedAddSigned c.«end» offset = none ∧
        c.tryMoveEnd offset = (Except.error TimeOverflow.mk, c))) := by
  constructor
  · rcases hadd : checkedAddSigned c.start offset with _ | t
    · exact Or.inr ⟨rfl, by unfold Counter.tryMoveStart; rw [hadd]⟩
    · refine Or.inl ⟨t, rfl, ?_, by unfold Counter.tryMoveStart; rw [hadd]⟩
      unfold checkedAddSigned at hadd
      split at hadd
      · exact (Option.some.injEq _ _ ▸ hadd).symm
      · exact absurd hadd (by simp)
  · rcases hadd : checkedAddSigned c.«end» offset with _ | t
    · exact Or.inr ⟨rfl, by unfold Counter.tryMoveEnd; rw [hadd]⟩
    · refine Or.inl ⟨t, rfl, ?_, by unfold Counter.tryMoveEnd; rw [hadd]⟩
      unfold checkedAddSigned at hadd
      split at hadd
      · exact (Option.some.injEq _ _ ▸ hadd).symm
      · exact absurd hadd (by simp)

/-- C10: `try_move_start` never touches `end` or `direction`, and
`try_move_end` never touches `start` or `direction`, in both the success
and the overflow case. -/
theorem try_move_frame (c : Counter DateTimeUtc) (offset : Int) :
    ((c.tryMoveStart offset).2.«end» = c.«end» ∧
      (c.tryMoveStart offset).2.direction = c.direction) ∧
    ((c.tryMoveEnd offset).2.start = c.start ∧
      (c.tryMoveEnd offset).2.direction = c.direction) := by
  constructor
  · unfold Counter.tryMoveStart
    cases checkedAddSigned c.start offset <;> exact ⟨rfl, rfl⟩
  · unfold Counter.tryMoveEnd
    cases checkedAddSigned c.«end» offset <;> exact ⟨rfl, rfl⟩

/-- C7: direction parsing succeeds exactly on the case-sensitive literals
`"Up"` and `"Down"`, fails on every other string, and rendering produces
exactly those tokens, so parse after render is the identity. -/
theorem direction_parse_render :
    (∀ s : String, (∃ d, Direction.fromStr s = Except.ok d) ↔ (s = "Up" ∨ s = "Down")) ∧
    Direction.fromStr "Up" = Except.ok Direction.Up ∧
    Direction.fromStr "Down" = Except.ok Direction.Down ∧
    (∀ s : String, s ≠ "Up" → s ≠ "Down" →
      Direction.fromStr s = Except.error ConversionError.mk) ∧
    Direction.Up.render = "Up" ∧ Direction.Down.render = "Down" ∧
    (∀ d : Direction, Direction.fromStr d.render = Except.ok d) := by
  refine ⟨?_, rfl, rfl, ?_, rfl, rfl, direction_fromStr_render⟩
  · intro s
    constructor
    · rintro ⟨d, hd⟩
      unfold Direction.fromStr at hd
      by_cases h1 : s = "Up"
      · exact Or.inl h1
      · by_cases h2 : s = "Down"
        · exact Or.inr h2
        · rw [if_neg h1, if_neg h2] at hd
          exact absurd hd (by simp)
    · rintro (h | h) <;> subst h
      · exact ⟨Direction.Up, rfl⟩
      · exact ⟨Direction.Down, rfl⟩
  · intro s h1 h2
    unfold Direction.fromStr
    rw [if_neg h1, if_neg h2]

/-- Witness for C7: a corrupted direction token is rejected. -/
theorem direction_parse_render_witness :
    Direction.fromStr "Sideways" = Except.error ConversionError.mk :=
  direction_parse_render.2.2.2.1 "Sideways" (by decide) (by decide)

/-- C8: the `Display` rendering is the clamped `counter()` triple as
`HH:MM:SS` with each component zero-padded to at least two digits, the
minute and second fields always exactly two digits, no component ever
negative, and hours growing beyond two digits: an Up counter whose start
is 864000 s before any `now` renders as `240:00:00`. -/
theorem render_hhmmss (c : Counter DateTimeUtc) (now : DateTimeUtc)
    (hh mm ss : Int) (hc : c.counter now = (hh, mm, ss)) :
    c.render now = pad2 hh ++ ":" ++ pad2 mm ++ ":" ++ pad2 ss ∧
    0 ≤ hh ∧ 0 ≤ mm ∧ mm < 60 ∧ 0 ≤ ss ∧ ss < 60 ∧
    (pad2 mm).length = 2 ∧ (pad2 ss).length = 2 ∧
    (∀ t : DateTimeUtc,
      (Counter.up (some (t - 864000 * nsPerSec)) none).render t = "240:00:00") := by
  have hb := counter_bounds c now
  rw [hc] at hb
  obtain ⟨b1, b2, b3, b4, b5⟩ := hb
  refine ⟨?_, b1, b2, b3, b4, b5, pad2_length_of_lt_sixty mm b2 b3,
    pad2_length_of_lt_sixty ss b4 b5, ?_⟩
  · rw [render_eq, hc]
  · intro t
    have hctr : (Counter.up (some (t - 864000 * nsPerSec)) none).counter t = (240, 0, 0) := by
      have harg : t - (t - 864000 * nsPerSec) = 864000 * nsPerSec := by ring
      rw [show Counter.up (some (t - 864000 * nsPerSec)) none =
          ⟨t - 864000 * nsPerSec, 0, Direction.Up⟩ from rfl,
        counter_up_eq, harg]
      decide
    rw [render_eq, hctr]
    decide

/-- Witness for C8 at a concrete counter and `now`. -/
theorem render_hhmmss_witness :
    Counter.render ⟨0, 0, Direction.Up⟩ 7384000000000 = "02:03:04" ∧
    Counter.render (Counter.up (some ((10 : Int) - 864000 * nsPerSec)) none) 10 =
      "240:00:00" := by
  have H := render_hhmmss ⟨0, 0, Direction.Up⟩ 7384000000000 2 3 4 (by decide)
  exact ⟨H.1.trans (by decide), H.2.2.2.2.2.2.2.2 10⟩

/-- Character list of the serialized text: the two rendered instants and
the direction token, separated by single newline characters. -/
theorem toFileText_data {Ts : Type} (rTs : Ts → String) (c : Counter Ts) :
    (Counter.toFileText rTs c).data =
      (rTs c.start).data ++ '\n' ::
        ((rTs c.«end»).data ++ '\n' :: c.direction.render.data) := by
  have hnl : ("\n" : String).data = ['\n'] := rfl
  simp [Counter.toFileText, String.data_append, hnl]

/-- Splitting the serialized text on newlines recovers exactly the three
fields, provided the instant renderings are newline-free. -/
theorem toFileText_split {Ts : Type} (rTs : Ts → String) (c : Counter Ts)
    (h1 : '\n' ∉ (rTs c.start).data) (h2 : '\n' ∉ (rTs c.«end»).data) :
    splitNl (Counter.toFileText rTs c).data =
      [(rTs c.start).data, (rTs c.«end»).data, c.direction.render.data] := by
  rw [toFileText_data, splitNl_append_of_not_mem _ _ h1,
    splitNl_append_of_not_mem _ _ h2,
    splitNl_of_not_mem _ (direction_render_no_newline _)]

/-- Reduction of `fromFileText` once the split is known to have at least
three pieces: parse start, then end, then direction, ignoring any rest. -/
theorem fromFileText_cons {Ts : Type} (pTs : String → Option Ts) (text : String)
    (l1 l2 l3 : List Char) (rest : List (List Char))
    (hs : splitNl text.data = l1 :: l2 :: l3 :: rest) :
    Counter.fromFileText pTs text =
      match pTs (String.mk l1) with
      | none => Except.error FromFileErr.invalidStart
      | some start =>
        match pTs (String.mk l2) with
        | none => Except.error FromFileErr.invalidEnd
        | some «end» =>
          match Direction.fromStr (String.mk l3) with
          | Except.error _ => Except.error FromFileErr.invalidDirection
          | Except.ok direction =>
            Except.ok { start := start, «end» := «end», direction := direction } := by
  unfold Counter.fromFileText
  rw [hs]

/-- C2: serializing a counter with `to_file`'s three-line rendering and
deserializing the exact same text with `from_file` succeeds and restores
`start`, `end` and `direction` exactly, for any instant codec satisfying
chrono's round-trip contract (parse after render is the identity and
renderings contain no newline). -/
theorem to_from_file_round_trip {Ts : Type} (rTs : Ts → String)
    (pTs : String → Option Ts)
    (hrt : ∀ x, pTs (rTs x) = some x)
    (hnl : ∀ x, '\n' ∉ (rTs x).data)
    (c : Counter Ts) :
    Counter.fromFileText pTs (Counter.toFileText rTs c) = Except.ok c := by
  rw [fromFileText_cons pTs _ (rTs c.start).data (rTs c.«end»).data
    c.direction.render.data [] (toFileText_split rTs c (hnl _) (hnl _))]
  rw [show String.mk (rTs c.start).data = rTs c.start from rfl, hrt,
    show String.mk (rTs c.«end»).data = rTs c.«end» from rfl, hrt,
    show String.mk c.direction.render.data = c.direction.render from rfl,
    direction_fromStr_render]

/-- Witness for C2 with a concrete newline-free codec on `Bool` instants. -/
theorem to_from_file_round_trip_witness :
    Counter.fromFileText
      (fun s => if s = "1" then some true else if s = "0" then some false else none)
      (Counter.toFileText (fun b : Bool => if b then "1" else "0")
        ⟨true, false, Direction.Down⟩) =
      Except.ok ⟨true, false, Direction.Down⟩ :=
  to_from_file_round_trip (fun b : Bool => if b then "1" else "0")
    (fun s => if s = "1" then some true else if s = "0" then some false else none)
    (by decide) (by decide) ⟨true, false, Direction.Down⟩

/-- C5: the serialized text is exactly the rendered start, rendered end
and direction token joined by two newline separators, with no trailing
newline, whenever the instant renderings are newline-free (chrono's
RFC 3339 output is). -/
theorem to_file_format (rTs : DateTimeUtc → String) (c : Counter DateTimeUtc)
    (h1 : '\n' ∉ (rTs c.start).data) (h2 : '\n' ∉ (rTs c.«end»).data) :
    Counter.toFileText rTs c =
      rTs c.start ++ "\n" ++ rTs c.«end» ++ "\n" ++ c.direction.render ∧
    splitNl (Counter.toFileText rTs c).data =
      [(rTs c.start).data, (rTs c.«end»).data, c.direction.render.data] ∧
    (Counter.toFileText rTs c).data.count '\n' = 2 ∧
    (Counter.toFileText rTs c).data.getLast? ≠ some '\n' := by
  refine ⟨rfl, toFileText_split rTs c h1 h2, ?_, ?_⟩
  · have e1 := List.count_eq_zero_of_not_mem h1
    have e2 := List.count_eq_zero_of_not_mem h2
    have e3 := List.count_eq_zero_of_not_mem (direction_render_no_newline c.direction)
    rw [toFileText_data]
    simp [List.count_append, List.count_cons, e1, e2, e3]
  · have hddne : c.direction.render.data ≠ [] := by
      cases c.direction <;> decide
    have hdlast : c.direction.render.data.getLast? ≠ some '\n' := by
      cases c.direction <;> decide
    rw [toFileText_data,
      List.getLast?_append_of_ne_nil _ (by simp)]
    show ((['\n'] : List Char) ++
      ((rTs c.«end»).data ++ '\n' :: c.direction.render.data)).getLast? ≠ some '\n'
    rw [List.getLast?_append_of_ne_nil _ (by simp),
      List.getLast?_append_of_ne_nil _ (by simp)]
    show ((['\n'] : List Char) ++ c.direction.render.data).getLast? ≠ some '\n'
    rw [List.getLast?_append_of_ne_nil _ hddne]
    exact hdlast

/-- Witness for C5 at a concrete counter with the decimal codec. -/
theorem to_file_format_witness :
    Counter.toFileText (fun n : DateTimeUtc => toString n) ⟨0, 60, Direction.Down⟩ =
      "0\n60\nDown" ∧
    ("0\n60\nDown" : String).data.count '\n' = 2 := by
  have H := to_file_format (fun n : DateTimeUtc => toString n) ⟨0, 60, Direction.Down⟩
    (by decide) (by decide)
  exact ⟨H.1.trans (by decide), by decide⟩

/-- C6: deserialization fails with the malformed-data error when the text
splits into fewer than three fields, with the respective field error when
the start instant, end instant or direction fails to parse (checked in
that order), ignores any fields beyond the third, and in the success case
returns a fully populated counter. -/
theorem from_file_errors {Ts : Type} (pTs : String → Option Ts) (text : String) :
    ((splitNl text.data).length < 3 →
      Counter.fromFileText pTs text = Except.error FromFileErr.malformed) ∧
    (∀ l1 l2 l3 rest, splitNl text.data = l1 :: l2 :: l3 :: rest →
      (pTs (String.mk l1) = none →
        Counter.fromFileText pTs text = Except.error FromFileErr.invalidStart) ∧
      (∀ s, pTs (String.mk l1) = some s → pTs (String.mk l2) = none →
        Counter.fromFileText pTs text = Except.error FromFileErr.invalidEnd) ∧
      (∀ s e, pTs (String.mk l1) = some s → pTs (String.mk l2) = some e →
        Direction.fromStr (String.mk l3) = Except.error ConversionError.mk →
        Counter.fromFileText pTs text = Except.error FromFileErr.invalidDirection) ∧
      (∀ s e d, pTs (String.mk l1) = some s → pTs (String.mk l2) = some e →
        Direction.fromStr (String.mk l3) = Except.ok d →
        Counter.fromFileText pTs text =
          Except.ok { start := s, «end» := e, direction := d })) := by
  constructor
  · intro hlen
    unfold Counter.fromFileText
    rcases hs : splitNl text.data with _ | ⟨l1, _ | ⟨l2, _ | ⟨l3, rest⟩⟩⟩
    · rfl
    · rfl
    · rfl
    · rw [hs] at hlen
      simp at hlen
      omega
  · intro l1 l2 l3 rest hs
    rw [fromFileText_cons pTs text l1 l2 l3 rest hs]
    refine ⟨?_, ?_, ?_, ?_⟩
    · intro h1
      rw [h1]
    · intro s h1 h2
      rw [h1, h2]
    · intro s e h1 h2 h3
      rw [h1, h2, h3]
    · intro s e d h1 h2 h3
      rw [h1, h2, h3]

/-- Witness for C6: a one-field text is malformed, and a corrupted
direction field is rejected after both instants parse. -/
theorem from_file_errors_witness :
    Counter.fromFileText
      (fun s => if s = "0" then some (0 : DateTimeUtc) else none) "xyz" =
      Except.error FromFileErr.malformed ∧
    Counter.fromFileText
      (fun s => if s = "0" then some (0 : DateTimeUtc) else none) "0\n0\nSideways" =
      Except.error FromFileErr.invalidDirection := by
  constructor
  · exact (from_file_errors _ "xyz").1 (by decide)
  · exact ((from_file_errors _ "0\n0\nSideways").2
      "0".data "0".data "Sideways".data [] (by decide)).2.2.1 0 0
      (by decide) (by decide) rfl

end Countrs
